import Mathlib

/-!
# Formal model of `zybookgrader` (src/zybookgrader/main.py)

A shallow embedding of the grading pipeline of `zybookgrader`: loading
dated point reports, reconciling cumulative snapshots into per-day
increments, applying late penalties, and computing final grades.

Modelling conventions:
* pandas float64 cell values are modelled by exact rationals (`ℚ`);
* timestamps are integer nanoseconds since the epoch (`ℤ`), the
  resolution of `pandas.Timestamp` / numpy `datetime64[ns]`;
* `Series.round()` is numpy rounding, i.e. round half to even;
* fallible Python code (a regex match that may fail, `sys.exit`, an
  uncaught exception) is modelled with `Option` / `Except`.
-/

namespace Zybookgrader

/-- The `KEY_COLS` list (main.py lines 12–18): the five identity columns. -/
def KEY_COLS : List String :=
  ["last_name", "first_name", "primary_email", "school_email", "student_id"]

/-- Value of a decimal digit string, as Python `int` reads it
(leading zeros allowed). -/
def digitsToNat (cs : List Char) : ℕ :=
  cs.foldl (fun a c => 10 * a + (c.toNat - '0'.toNat)) 0

/-- Model of `matchpointstotal` (main.py 83–88): `re.search(PAT_POINTS, s)` with
`PAT_POINTS = '\((?P<pts>\d+)\)$'`.  The anchored pattern succeeds iff
`s` ends in a literal `(`, one or more digits, and a final `)`;
the digits are returned as an `int`.  `none` models the `AttributeError`
raised on `m.groupdict()` when there is no match. -/
def matchpointstotal (s : String) : Option ℕ :=
  match s.data.reverse with
  | ')' :: rest =>
      match rest.dropWhile Char.isDigit with
      | '(' :: _ =>
          let ds := rest.takeWhile Char.isDigit
          if ds.isEmpty then none else some (digitsToNat ds.reverse)
      | _ => none
  | _ => none

/-- numpy/pandas `Series.round()` on a scalar: round half to even
(banker's rounding), used by `_topoints` (main.py 96). -/
def roundHalfEven (q : ℚ) : ℤ :=
  if q - ⌊q⌋ < 1/2 then ⌊q⌋
  else if 1/2 < q - ⌊q⌋ then ⌊q⌋ + 1
  else if ⌊q⌋ % 2 = 0 then ⌊q⌋ else ⌊q⌋ + 1

/-- Model of `_topoints` (main.py 91–96) on one cell: the column's percentage
value `v` becomes `(pts * v / 100).round()` where `pts` is parsed from
the column name by `matchpointstotal`. -/
def _topoints (pts : ℕ) (v : ℚ) : ℚ :=
  ((roundHalfEven ((pts : ℚ) * v / 100) : ℤ) : ℚ)

/-- Model of `topoints` (main.py 99–107) on one cell of one column: the value is
converted by `_topoints` iff the column name matches `PAT_POINTS`
(`re.search(PAT_POINTS, col)`), otherwise it is left unchanged. -/
def topointsCol (name : String) (v : ℚ) : ℚ :=
  match matchpointstotal name with
  | some pts => _topoints pts v
  | none => v

/-- Model of `deductpoints` (main.py 241–250) on one points-column cell:
`df[col] -= df['days_late'].clip(0) * pen * df[col]` with
`pen = penalty / 100`; `Series.clip(0)` is `max · 0`. -/
def deductpoints (v daysLate penalty : ℚ) : ℚ :=
  v - max daysLate 0 * (penalty / 100) * v

/-- Model of `scorefun` (main.py 271–278): full credit at or above the
threshold, identity below it. -/
def scorefun (total threshold : ℚ) : ℚ :=
  if threshold ≤ total then 100 else total

/-- One output row of `finalgrade`. -/
structure GradeRow where
  total : ℚ
  final : ℚ
  final_pts : ℚ
  deriving DecidableEq, Repr

/-- The per-student formulas of `finalgrade` (main.py 253–268), applied
after the groupby-sum: `summedPts` is the student's summed total-points
column, `totalPts` the maximum parsed from the total column's name. -/
def finalgradeRow (summedPts totalPts threshold : ℚ) : GradeRow :=
  let total := summedPts / totalPts * 100
  { total := total
    final := scorefun total threshold
    final_pts := scorefun total threshold / 100 * totalPts }

/-! ## Rounding lemmas -/

theorem roundHalfEven_dist (q : ℚ) : |(roundHalfEven q : ℚ) - q| ≤ 1/2 := by
  have h0 : ((⌊q⌋ : ℚ)) ≤ q := Int.floor_le q
  have h1 : q < ⌊q⌋ + 1 := Int.lt_floor_add_one q
  unfold roundHalfEven
  split_ifs with hlt hgt hev
  · rw [abs_le]; constructor <;> linarith
  · rw [abs_le]; push_cast; constructor <;> linarith
  · have h : q - ⌊q⌋ = 1/2 := le_antisymm (not_lt.mp hgt) (not_lt.mp hlt)
    rw [abs_le]; constructor <;> linarith
  · have h : q - ⌊q⌋ = 1/2 := le_antisymm (not_lt.mp hgt) (not_lt.mp hlt)
    rw [abs_le]; push_cast; constructor <;> linarith

theorem roundHalfEven_intCast (n : ℤ) : roundHalfEven (n : ℚ) = n := by
  unfold roundHalfEven
  rw [Int.floor_intCast]
  have : (n : ℚ) - n = 0 := by ring
  rw [this]
  norm_num

/-! ## C5: percentage-to-points conversion -/

/-- C5: for every points column whose name declares maximum `M` and
every percentage `p` in 0–100, the conversion returns the rounding of
`M * p / 100` to a nearest integer (|result − M·p/100| ≤ 1/2), and
`p = 100` yields exactly `M`. -/
theorem topoints_nearest (name : String) (M : ℕ) (p : ℚ)
    (hname : matchpointstotal name = some M) (h0 : 0 ≤ p) (h1 : p ≤ 100) :
    |topointsCol name p - (M : ℚ) * p / 100| ≤ 1/2 ∧
      topointsCol name 100 = (M : ℚ) := by
  constructor
  · rw [topointsCol, hname]
    exact roundHalfEven_dist _
  · rw [topointsCol, hname]
    show _topoints M 100 = (M : ℚ)
    unfold _topoints
    have h : (M : ℚ) * 100 / 100 = ((M : ℤ) : ℚ) := by push_cast; ring
    rw [h, roundHalfEven_intCast]
    push_cast; ring

/-- Witness for `topoints_nearest` at the column `"hw1_(25)"`, `p = 50`. -/
theorem topoints_nearest_witness :
    |topointsCol "hw1_(25)" 50 - (25 : ℚ) * 50 / 100| ≤ 1/2 ∧
      topointsCol "hw1_(25)" 100 = (25 : ℚ) :=
  topoints_nearest "hw1_(25)" 25 50 (by decide) (by norm_num) (by norm_num)

/-! ## C2: late-penalty deduction -/

/-- C2: `deductpoints` deducts `clip(days_late, 0) * (penalty/100)`
times the raw value: no deduction when `days_late ≤ 0`, a deduction of
exactly `days_late * (penalty/100) * v` when `days_late > 0`; raw
points 20 with 3 days late and penalty 20 lose 12 points leaving 8. -/
theorem deductpoints_spec (v dl pen : ℚ) :
    (dl ≤ 0 → deductpoints v dl pen = v) ∧
    (0 < dl → v - deductpoints v dl pen = dl * (pen / 100) * v) ∧
    deductpoints 20 3 20 = 8 ∧ (20 : ℚ) - deductpoints 20 3 20 = 12 := by
  refine ⟨fun h => ?_, fun h => ?_, ?_, ?_⟩
  · rw [deductpoints, max_eq_right h]; ring
  · rw [deductpoints, max_eq_left h.le]; ring
  · norm_num [deductpoints]
  · norm_num [deductpoints]

/-- Witness for `deductpoints_spec`: a zero/negative-lateness row is
unchanged and the worked example deducts 12. -/
theorem deductpoints_spec_witness :
    deductpoints 5 (-1) 20 = 5 ∧ (20 : ℚ) - deductpoints 20 3 20 = 12 :=
  ⟨(deductpoints_spec 5 (-1) 20).1 (by norm_num),
   (deductpoints_spec 20 3 20).2.2.2⟩

/-! ## C10: the penalty has no lower bound -/

/-- C10: whenever `clip(days_late,0) * penalty/100 > 1` the penalized
value of a positive points cell drops below zero (no lower bound is
applied); with the default penalty 20 and 6 days late, raw points 20
become −4. -/
theorem deductpoints_no_lower_bound (v dl pen : ℚ) (hv : 0 < v)
    (h : 1 < max dl 0 * (pen / 100)) :
    deductpoints v dl pen < 0 ∧ deductpoints 20 6 20 = -4 := by
  constructor
  · have hrw : deductpoints v dl pen = v * (1 - max dl 0 * (pen / 100)) := by
      rw [deductpoints]; ring
    rw [hrw]
    exact mul_neg_of_pos_of_neg hv (by linarith)
  · norm_num [deductpoints]

/-- Witness for `deductpoints_no_lower_bound` at raw 20, 6 days late,
penalty 20. -/
theorem deductpoints_no_lower_bound_witness :
    deductpoints 20 6 20 < 0 ∧ deductpoints 20 6 20 = -4 :=
  deductpoints_no_lower_bound 20 6 20 (by norm_num)
    (by rw [show max (6:ℚ) 0 = 6 from max_eq_left (by norm_num)]; norm_num)

/-! ## C3: final-grade threshold step -/

/-- C3: `finalgrade` computes `total = summed / total_possible * 100`,
`final = 100` iff `total ≥ threshold` else `total`, and
`final_pts = final/100 * total_possible` (which is `total_possible`
above the threshold and the raw sum below it); `scorefun` sends
total 69.9 at threshold 70 to 69.9, total 70 to 100 and total 95
to 100. -/
theorem finalgrade_step (s tp th : ℚ) (htp : tp ≠ 0) :
    (finalgradeRow s tp th).total = s / tp * 100 ∧
    (finalgradeRow s tp th).final =
      (if s / tp * 100 ≥ th then 100 else s / tp * 100) ∧
    (finalgradeRow s tp th).final_pts =
      (if s / tp * 100 ≥ th then tp else s) ∧
    scorefun (699/10) 70 = 699/10 ∧ scorefun 70 70 = 100 ∧
    scorefun 95 70 = 100 := by
  refine ⟨rfl, rfl, ?_, by norm_num [scorefun], by norm_num [scorefun],
    by norm_num [scorefun]⟩
  rw [finalgradeRow, scorefun]
  simp only [ge_iff_le]
  split_ifs
  · ring
  · field_simp
    ring

/-- Witness for `finalgrade_step` at summed points 35, maximum 50,
threshold 70 (a 70% total, curved to full credit). -/
theorem finalgrade_step_witness :
    (finalgradeRow 35 50 70).total = 35 / 50 * 100 ∧
    (finalgradeRow 35 50 70).final =
      (if (35 : ℚ) / 50 * 100 ≥ 70 then 100 else 35 / 50 * 100) ∧
    (finalgradeRow 35 50 70).final_pts =
      (if (35 : ℚ) / 50 * 100 ≥ 70 then 50 else 35) ∧
    scorefun (699/10) 70 = 699/10 ∧ scorefun 70 70 = 100 ∧
    scorefun 95 70 = 100 :=
  finalgrade_step 35 50 70 (by norm_num)

/-! ## C6: days_late -/

/-- Nanoseconds per day: the conversion denominator from
`timedelta64[ns]` (the resolution of a pandas timestamp difference) to
`timedelta64[D]`. -/
def nsPerDay : ℤ := 86400000000000

/-- numpy's timedelta unit-conversion scaling (`datetime.c`,
`cast_timedelta_to_timedelta`), as invoked by `.astype('m8[D]')` in
`read` (main.py 222), with conversion factor num = 1 and
denom = `nsPerDay`: C `int64` division truncates toward zero
(`Int.tdiv`), and a negative source is pre-adjusted by `denom − 1`
so that the conversion rounds down. -/
def castTimedeltaNsToDays (src : ℤ) : ℤ :=
  if src < 0 then (src - (nsPerDay - 1)).tdiv nsPerDay
  else src.tdiv nsPerDay

/-- Model of the `days_late` assignment in `read` (main.py 222):
`days_late = (df['day'] - df['due_date']).astype('m8[D]')`, on
timestamps in nanoseconds. -/
def days_late (day due_date : ℤ) : ℤ :=
  castTimedeltaNsToDays (day - due_date)

/-- numpy's negative-source adjustment implements floor division:
the conversion equals the (floor-rounding) integer division of Lean. -/
theorem castTimedeltaNsToDays_eq_ediv (src : ℤ) :
    castTimedeltaNsToDays src = src / nsPerDay := by
  unfold castTimedeltaNsToDays nsPerDay
  split_ifs with h
  · have hrw : src - (86400000000000 - 1) = -((86400000000000 - 1) - src) := by
      ring
    rw [hrw, Int.neg_tdiv, Int.tdiv_eq_ediv (by omega) (by norm_num)]
    omega
  · exact Int.tdiv_eq_ediv (by omega) (by norm_num)

/-- C6: `days_late` is the timestamp difference day − due_date floored
to whole days; it is negative whenever the day precedes the due date
(early submission), and the clip at zero happens only in the penalty
stage (`deductpoints` leaves such rows unchanged). -/
theorem days_late_floor (day due : ℤ) :
    days_late day due = ⌊((day : ℚ) - due) / (86400000000000 : ℚ)⌋ ∧
    (day < due → days_late day due < 0) ∧
    (∀ v p : ℚ, day < due → deductpoints v ((days_late day due : ℤ) : ℚ) p = v) := by
  have hfloor : days_late day due = (day - due) / nsPerDay := by
    rw [days_late, castTimedeltaNsToDays_eq_ediv]
  have hq : days_late day due = ⌊((day : ℚ) - due) / (86400000000000 : ℚ)⌋ := by
    rw [hfloor]
    have := Rat.floor_intCast_div_natCast (day - due) 86400000000000
    rw [show (((day - due : ℤ) : ℚ)) = (day : ℚ) - due by push_cast; ring] at this
    rw [show ((86400000000000 : ℕ) : ℚ) = (86400000000000 : ℚ) by norm_num] at this
    rw [this]
    norm_num [nsPerDay]
  have hneg : day < due → days_late day due < 0 := by
    intro h
    rw [hfloor]
    unfold nsPerDay
    omega
  refine ⟨hq, hneg, fun v p h => ?_⟩
  have h0 : ((days_late day due : ℤ) : ℚ) ≤ 0 := by
    exact_mod_cast (hneg h).le
  rw [deductpoints, max_eq_right h0]
  ring

/-- Witness for `days_late_floor`: a report one day before the due
date has `days_late = −1` and incurs no deduction. -/
theorem days_late_floor_witness :
    days_late 0 86400000000000 =
      ⌊((0 : ℚ) - 86400000000000) / (86400000000000 : ℚ)⌋ ∧
    days_late 0 86400000000000 < 0 ∧
    deductpoints 7 ((days_late 0 86400000000000 : ℤ) : ℚ) 20 = 7 := by
  obtain ⟨h1, h2, h3⟩ := days_late_floor 0 86400000000000
  exact ⟨h1, h2 (by norm_num), h3 7 20 (by norm_num)⟩

/-! ## C1: which output files a run writes -/

/-- Python runtime errors surfacing in `_main`. -/
inductive PyError
  /-- `AttributeError`: an attribute lookup on a module failed. -/
  | attributeError
  /-- `KeyError`: a data-frame column selection named a missing column. -/
  | keyError (key : String)
  deriving DecidableEq, Repr

/-- Which output files a completed `_main` run has written. -/
structure MainOutputs where
  summaryWritten : Bool
  gradesWritten : Bool
  deriving DecidableEq, Repr

/-- The file-deletion functions Python's `os` module actually defines:
`os.remove` and `os.unlink`.  There is no `os.delete`. -/
def osFileDeletionAttrs : List String := ["remove", "unlink"]

/-- Attribute lookup `os.<name>` (restricted to file-deletion
attributes): raises `AttributeError` when the module has no such
attribute. -/
def osGetFileDeletionAttr (name : String) : Except PyError String :=
  if name ∈ osFileDeletionAttrs then Except.ok name
  else Except.error PyError.attributeError

/-- The temporal columns `read` (main.py 216–232) attaches to the
reconciled frame: `day` always; `due_date` and `days_late` only when a
due-date roster is supplied (the `assignment_fp is not None` branch,
main.py 204–223). -/
def readTemporalCols (rosterGiven : Bool) : List String :=
  if rosterGiven then ["due_date", "day", "days_late"] else ["day"]

/-- Model of the column selection `df['days_late']` in `summarize`
(main.py 288): selecting a column the reconciled frame does not have
raises `KeyError`. -/
def selectDaysLate (rosterGiven : Bool) : Except PyError Unit :=
  if "days_late" ∈ readTemporalCols rosterGiven then Except.ok ()
  else Except.error (PyError.keyError "days_late")

/-- The output-file control flow of `_main` (main.py 361–380).  With
more than one report, `summarize(df)` runs first (main.py 363): it
selects `df['days_late']`, which `read` only created when a due-date
roster was supplied, so without a roster a `KeyError` propagates out
of `_main` before either output is written; with a roster the summary
is written and then the grades CSV.  With exactly one report the code
closes the summary handle and evaluates
`os.delete(args.output_summary)` (main.py 369) — the attribute lookup
`os.delete` raises `AttributeError`, which propagates out of `_main`
before the grades CSV is written. -/
def mainOutputFlow (numReports : ℕ) (rosterGiven : Bool) :
    Except PyError MainOutputs :=
  if 1 < numReports then
    match selectDaysLate rosterGiven with
    | Except.error e => Except.error e
    | Except.ok _ => Except.ok { summaryWritten := true, gradesWritten := true }
  else
    match osGetFileDeletionAttr "delete" with
    | Except.error e => Except.error e
    | Except.ok _ => Except.ok { summaryWritten := false, gradesWritten := true }

/-- C1 (divergence at the failing inputs): a single-report run aborts
with `AttributeError` at `os.delete`, writing neither the grades CSV
nor a summary; a multi-report run without a due-date roster aborts
with `KeyError('days_late')` inside `summarize`, also writing nothing;
only a multi-report run with a roster writes the by-day summary and
then the grades CSV. -/
theorem main_output_flow_spec (n : ℕ) (roster : Bool) :
    mainOutputFlow 1 roster = Except.error PyError.attributeError ∧
    (1 < n → mainOutputFlow n false =
      Except.error (PyError.keyError "days_late")) ∧
    (1 < n → mainOutputFlow n true =
      Except.ok { summaryWritten := true, gradesWritten := true }) := by
  refine ⟨rfl, fun h => ?_, fun h => ?_⟩
  · rw [mainOutputFlow, if_pos h]
    rfl
  · rw [mainOutputFlow, if_pos h]
    rfl

/-- Witness for `main_output_flow_spec` at a two-report run, with and
without a roster. -/
theorem main_output_flow_spec_witness :
    mainOutputFlow 1 true = Except.error PyError.attributeError ∧
    mainOutputFlow 2 false = Except.error (PyError.keyError "days_late") ∧
    mainOutputFlow 2 true =
      Except.ok { summaryWritten := true, gradesWritten := true } :=
  ⟨(main_output_flow_spec 2 true).1,
   (main_output_flow_spec 2 true).2.1 (by norm_num),
   (main_output_flow_spec 2 true).2.2 (by norm_num)⟩

/-! ## C8: filename timestamp extraction -/

/-- Whether a character window has exactly the shape of `PAT_TS`'s
`timestamp` group (main.py 21): `\d\d\d\d-\d\d-\d\d_\d\d\d\d`. -/
def tsShape : List Char → Bool
  | [y1, y2, y3, y4, '-', m1, m2, '-', d1, d2, '_', h1, h2, n1, n2] =>
      y1.isDigit && y2.isDigit && y3.isDigit && y4.isDigit &&
      m1.isDigit && m2.isDigit && d1.isDigit && d2.isDigit &&
      h1.isDigit && h2.isDigit && n1.isDigit && n2.isDigit
  | _ => false

/-- A match of `PAT_TS`: the 15 characters of the `timestamp` group
and, when the optional `(_(?P<tz>[^.]*))?` group participated, the
characters of the `tz` group. -/
structure TSMatch where
  tsChars : List Char
  tz : Option String
  deriving DecidableEq, Repr

/-- The optional `(_(?P<tz>[^.]*))?` group of `PAT_TS`, matched
against the text following the `timestamp` group: it participates iff
an underscore follows, and then the `tz` group greedily takes every
character up to the first `.` (possibly none). -/
def tzGroup : List Char → Option String
  | '_' :: more => some (String.mk (more.takeWhile (fun c => c != '.')))
  | _ => none

/-- Model of `re.search(PAT_TS, s)`: scan left to right for the first
position where the 15-character `timestamp` group matches, and return
the matched groups.  (The trailing tz group is optional and can match
the empty string, so it never affects whether the search succeeds.) -/
def searchTS : List Char → Option TSMatch
  | [] => none
  | c :: rest =>
      if tsShape ((c :: rest).take 15)
      then some ⟨(c :: rest).take 15, tzGroup ((c :: rest).drop 15)⟩
      else searchTS rest

/-- A parsed naive `datetime.datetime`. -/
structure PyDateTime where
  year : ℕ
  month : ℕ
  day : ℕ
  hour : ℕ
  minute : ℕ
  deriving DecidableEq, Repr

/-- Gregorian leap year, as `datetime` uses it. -/
def isLeapYear (y : ℕ) : Bool :=
  (y % 4 = 0 && !(y % 100 = 0)) || y % 400 = 0

/-- Days in a month of a given year. -/
def daysInMonth (y m : ℕ) : ℕ :=
  if m = 2 then (if isLeapYear y then 29 else 28)
  else if m = 4 ∨ m = 6 ∨ m = 9 ∨ m = 11 then 30 else 31

/-- Model of `datetime.datetime.strptime(ts, '%Y-%m-%d_%H%M')` (main.py 133) on
the 15-character matched group: reads the five numeric fields and
validates them as a `datetime` (year ≥ 1, month 1–12, day within the
month, hour ≤ 23, minute ≤ 59); `none` models the `ValueError` raised
on an invalid date-time. -/
def strptimeTS : List Char → Option PyDateTime
  | [y1, y2, y3, y4, '-', m1, m2, '-', d1, d2, '_', h1, h2, n1, n2] =>
      let y := digitsToNat [y1, y2, y3, y4]
      let mo := digitsToNat [m1, m2]
      let d := digitsToNat [d1, d2]
      let h := digitsToNat [h1, h2]
      let mi := digitsToNat [n1, n2]
      if 1 ≤ y ∧ 1 ≤ mo ∧ mo ≤ 12 ∧ 1 ≤ d ∧ d ≤ daysInMonth y mo ∧
          h ≤ 23 ∧ mi ≤ 59
      then some ⟨y, mo, d, h, mi⟩ else none
  | _ => none

/-- Model of `dateutil.tz.gettz` on a fragment of the timezone
database: whether the name resolves to a tzinfo object.  The listed
names (IANA names and the usual abbreviations) resolve; any name
outside the database makes `gettz` return `None`.  The empty name
resolves too (`gettz` falls back to the local zone for a falsy
name). -/
def gettzResolves (name : String) : Bool :=
  name ∈ ["", "UTC", "GMT", "EST", "EDT", "CST", "CDT", "MST", "MDT",
          "PST", "PDT", "US/Eastern", "US/Pacific", "America/New_York"]

/-- The timestamp `matchdatefromfilename` returns: the parsed naive
date-time, or — when a recognized timezone suffix was present — that
date-time localized to the named zone and converted to UTC
(main.py 134–137).  The offset arithmetic of the conversion is not
modelled, only which zone the fields are interpreted in. -/
inductive PyTimestamp
  | naive (dt : PyDateTime)
  | utcFrom (dt : PyDateTime) (tz : String)
  deriving DecidableEq, Repr

/-- How `matchdatefromfilename` (main.py 122–140) terminates without
returning a timestamp. -/
inductive LoaderExit
  /-- The message printed to standard error, followed by `sys.exit(1)`. -/
  | exitOne (stderrMsg : String)
  /-- An uncaught `ValueError` raised by `datetime.strptime`
  (the process dies with a traceback, not via the designed path). -/
  | valueError
  /-- An uncaught `TypeError` raised by
  `pandas.Timestamp(ts).astimezone("UTC")` on a tz-naive timestamp:
  when `gettz` does not recognize the tz suffix it returns `None`,
  `ts.replace(tzinfo=None)` leaves the timestamp naive, and
  `astimezone` refuses it. -/
  | typeError
  deriving DecidableEq, Repr

/-- Model of `matchdatefromfilename` (main.py 122–140): search the
filename for the timestamp pattern; when there is no match, print
`"Error: not a valid grade file: <s>"` to stderr and `sys.exit(1)`;
otherwise parse the matched group with `strptime`.  When the optional
tz group matched, `gettz` looks its name up (main.py 135), the parsed
timestamp is re-localized to the result and converted to UTC — which
raises `TypeError` when the lookup returned `None`. -/
def matchdatefromfilename (s : String) : Except LoaderExit PyTimestamp :=
  match searchTS s.data with
  | none =>
      Except.error (LoaderExit.exitOne ("Error: not a valid grade file: " ++ s))
  | some m =>
      match strptimeTS m.tsChars with
      | none => Except.error LoaderExit.valueError
      | some dt =>
          match m.tz with
          | none => Except.ok (PyTimestamp.naive dt)
          | some tzname =>
              if gettzResolves tzname
              then Except.ok (PyTimestamp.utcFrom dt tzname)
              else Except.error LoaderExit.typeError

/-- The search fails exactly when no position of the string starts a
window of the timestamp shape. -/
theorem searchTS_eq_none_iff (cs : List Char) :
    searchTS cs = none ↔ ∀ i, tsShape ((cs.drop i).take 15) = false := by
  induction cs with
  | nil =>
      constructor
      · intro _ i
        rw [List.drop_nil, List.take_nil]
        rfl
      · intro _
        rfl
  | cons c rest ih =>
      rw [searchTS]
      constructor
      · intro h i
        by_cases hsh : tsShape ((c :: rest).take 15)
        · rw [if_pos hsh] at h; exact absurd h (by simp)
        · rw [if_neg hsh] at h
          cases i with
          | zero => rw [List.drop_zero]; simpa using hsh
          | succ j => exact (ih.mp h) j
      · intro h
        have h0 := h 0
        rw [List.drop_zero] at h0
        rw [if_neg (by rw [h0]; simp)]
        exact ih.mpr (fun i => by
          have hi := h (i + 1)
          rwa [List.drop_succ_cons] at hi)

/-- C8 (counterexample to the claim as stated): the filename
`report_2020-13-01_0000.csv` matches the `YYYY-MM-DD_HHMM` timestamp
pattern, yet the loader does not return a parsed timestamp: `strptime`
raises an uncaught `ValueError` (month 13), so the designed
print-and-exit path is also not what happens. -/
theorem matchdate_invalid_month_counterexample :
    (searchTS ("report_2020-13-01_0000.csv").data).isSome = true ∧
    matchdatefromfilename "report_2020-13-01_0000.csv" =
      Except.error LoaderExit.valueError := by
  constructor
  · rfl
  · rfl

/-- C8 (amended): a filename in which no position matches the
timestamp pattern makes the loader print the error to stderr and
`sys.exit(1)`; a filename that matches and whose matched digits form a
valid calendar date-time yields the parsed timestamp — naive with no
tz suffix, converted to UTC when the suffix resolves in the tz
database — while an unrecognized tz suffix raises an uncaught
`TypeError` instead, as the concrete filename
`2020-01-15_1200_XYZ.csv` does. -/
theorem matchdate_spec (s : String) :
    ((∀ i, tsShape ((s.data.drop i).take 15) = false) →
      matchdatefromfilename s =
        Except.error (LoaderExit.exitOne
          ("Error: not a valid grade file: " ++ s))) ∧
    (∀ m dt, searchTS s.data = some m → strptimeTS m.tsChars = some dt →
      (m.tz = none →
        matchdatefromfilename s = Except.ok (PyTimestamp.naive dt)) ∧
      (∀ tzname, m.tz = some tzname → gettzResolves tzname = true →
        matchdatefromfilename s = Except.ok (PyTimestamp.utcFrom dt tzname)) ∧
      (∀ tzname, m.tz = some tzname → gettzResolves tzname = false →
        matchdatefromfilename s = Except.error LoaderExit.typeError)) ∧
    matchdatefromfilename "2020-01-15_1200_XYZ.csv" =
      Except.error LoaderExit.typeError := by
  refine ⟨fun h => ?_,
    fun m dt h1 h2 =>
      ⟨fun htz => ?_, fun tzname htz hres => ?_, fun tzname htz hres => ?_⟩,
    rfl⟩
  · have hn : searchTS s.data = none := (searchTS_eq_none_iff s.data).mpr h
    simp only [matchdatefromfilename, hn]
  · simp only [matchdatefromfilename, h1, h2, htz]
  · simp only [matchdatefromfilename, h1, h2, htz]
    rw [if_pos hres]
  · simp only [matchdatefromfilename, h1, h2, htz]
    rw [if_neg (by rw [hres]; exact Bool.false_ne_true)]

/-- Witness for `matchdate_spec`: `notimestamp.csv` exits with the
stderr message; `2020-01-15_1200.csv` parses to naive
2020-01-15 12:00; `2020-01-15_1200_UTC.csv` parses with its recognized
zone suffix. -/
theorem matchdate_spec_witness :
    matchdatefromfilename "notimestamp.csv" =
      Except.error (LoaderExit.exitOne
        ("Error: not a valid grade file: " ++ "notimestamp.csv")) ∧
    matchdatefromfilename "2020-01-15_1200.csv" =
      Except.ok (PyTimestamp.naive ⟨2020, 1, 15, 12, 0⟩) ∧
    matchdatefromfilename "2020-01-15_1200_UTC.csv" =
      Except.ok (PyTimestamp.utcFrom ⟨2020, 1, 15, 12, 0⟩ "UTC") := by
  refine ⟨?_, ?_, ?_⟩
  · refine (matchdate_spec "notimestamp.csv").1 ?_
    intro i
    by_cases h : i < 15
    · interval_cases i <;> rfl
    · rw [List.drop_eq_nil_of_le
        (le_trans (le_of_eq (show ("notimestamp.csv").data.length = 15 from rfl))
          (not_lt.mp h))]
      rfl
  · exact (((matchdate_spec "2020-01-15_1200.csv").2.1
      ⟨("2020-01-15_1200").data, none⟩ ⟨2020, 1, 15, 12, 0⟩ rfl rfl).1 rfl)
  · exact (((matchdate_spec "2020-01-15_1200_UTC.csv").2.1
      ⟨("2020-01-15_1200").data, some "UTC"⟩ ⟨2020, 1, 15, 12, 0⟩ rfl rfl).2.1
        "UTC" rfl rfl)

/-! ## C9: missing-value filling -/

/-- A pandas cell value: a string or a number. -/
inductive Value
  | str (s : String)
  | num (q : ℚ)
  deriving DecidableEq, Repr

/-- Whether the value is a string. -/
def Value.isStr : Value → Bool
  | .str _ => true
  | .num _ => false

/-- Whether the value is a number. -/
def Value.isNum : Value → Bool
  | .str _ => false
  | .num _ => true

/-- One data-frame column: its name and its cells
(`none` is a missing value / NaN). -/
structure Column where
  name : String
  cells : List (Option Value)
  deriving DecidableEq, Repr

/-- The fill value `fillnasafe` (main.py 110–119) assigns to a column:
`fv = dict.fromkeys(df.columns, 0)`, then `fv[col] = ''` for each of
the five `KEY_COLS`. -/
def fillValue (name : String) : Value :=
  if name ∈ KEY_COLS then Value.str "" else Value.num 0

/-- Model of `fillnasafe`'s `df.fillna(fv)` step on one column: every missing cell
is replaced by the column's fill value. -/
def fillnasafeCol (c : Column) : Column :=
  { c with cells := c.cells.map (fun cell => some (cell.getD (fillValue c.name))) }

/-- A column mixes strings and numbers when it holds at least one
string cell and at least one numeric cell. -/
def mixedTypes (c : Column) : Bool :=
  (c.cells.any fun x => (x.map Value.isStr).getD false) &&
  (c.cells.any fun x => (x.map Value.isNum).getD false)

/-- C9 (counterexample to the claim as stated): a non-key string
column (here `notes`) with a missing cell receives the numeric fill
sentinel `0`, so the filled column mixes a string and a number. -/
theorem fillnasafe_mixes_types_counterexample :
    ("notes" ∉ KEY_COLS) ∧
    fillnasafeCol ⟨"notes", [some (Value.str "resubmitted"), none]⟩ =
      ⟨"notes", [some (Value.str "resubmitted"), some (Value.num 0)]⟩ ∧
    mixedTypes
      (fillnasafeCol ⟨"notes", [some (Value.str "resubmitted"), none]⟩) = true := by
  refine ⟨by decide, rfl, rfl⟩

/-- C9 (amended): missing values in the five identity-key columns are
filled with the empty string and missing values in every other column
— in particular every numeric column — are filled with zero; a column
stays type-homogeneous whenever its present cells already agree with
its fill sentinel (all-numeric for a non-key column, all-string for a
key column). -/
theorem fillnasafe_fill_spec (c : Column) :
    (c.name ∈ KEY_COLS →
      (fillnasafeCol c).cells =
        c.cells.map (fun x => some (x.getD (Value.str "")))) ∧
    (c.name ∉ KEY_COLS →
      (fillnasafeCol c).cells =
        c.cells.map (fun x => some (x.getD (Value.num 0)))) ∧
    (c.name ∉ KEY_COLS →
      (∀ v, some v ∈ c.cells → v.isNum = true) →
      mixedTypes (fillnasafeCol c) = false) ∧
    (c.name ∈ KEY_COLS →
      (∀ v, some v ∈ c.cells → v.isStr = true) →
      mixedTypes (fillnasafeCol c) = false) := by
  refine ⟨fun h => ?_, fun h => ?_, fun h hnum => ?_, fun h hstr => ?_⟩
  · simp only [fillnasafeCol, fillValue, if_pos h]
  · simp only [fillnasafeCol, fillValue, if_neg h]
  · have : ∀ x ∈ (fillnasafeCol c).cells,
        ((x.map Value.isStr).getD false) = false := by
      intro x hx
      simp only [fillnasafeCol, fillValue, if_neg h, List.mem_map] at hx
      obtain ⟨cell, hcell, rfl⟩ := hx
      cases cell with
      | none => rfl
      | some v =>
          have := hnum v hcell
          cases v with
          | str s => simp [Value.isNum] at this
          | num q => rfl
    rw [mixedTypes]
    have hany : ((fillnasafeCol c).cells.any
        fun x => (x.map Value.isStr).getD false) = false := by
      rw [List.any_eq_false]
      intro x hx
      simp [this x hx]
    rw [hany]
    rfl
  · have : ∀ x ∈ (fillnasafeCol c).cells,
        ((x.map Value.isNum).getD false) = false := by
      intro x hx
      simp only [fillnasafeCol, fillValue, if_pos h, List.mem_map] at hx
      obtain ⟨cell, hcell, rfl⟩ := hx
      cases cell with
      | none => rfl
      | some v =>
          have := hstr v hcell
          cases v with
          | str s => rfl
          | num q => simp [Value.isStr] at this
    rw [mixedTypes]
    have hany : ((fillnasafeCol c).cells.any
        fun x => (x.map Value.isNum).getD false) = false := by
      rw [List.any_eq_false]
      intro x hx
      simp [this x hx]
    rw [hany]
    simp

/-- Witness for `fillnasafe_fill_spec`: a key column fills with `""`,
a points column fills with `0` and stays numeric. -/
theorem fillnasafe_fill_spec_witness :
    (fillnasafeCol ⟨"last_name", [none]⟩).cells =
      [none].map (fun x => some (x.getD (Value.str ""))) ∧
    (fillnasafeCol ⟨"hw1_(25)", [some (Value.num 20), none]⟩).cells =
      [some (Value.num 20), none].map (fun x => some (x.getD (Value.num 0))) ∧
    mixedTypes (fillnasafeCol ⟨"hw1_(25)", [some (Value.num 20), none]⟩) = false :=
  ⟨(fillnasafe_fill_spec ⟨"last_name", [none]⟩).1 (by decide),
   (fillnasafe_fill_spec ⟨"hw1_(25)", [some (Value.num 20), none]⟩).2.1 (by decide),
   (fillnasafe_fill_spec ⟨"hw1_(25)", [some (Value.num 20), none]⟩).2.2.1 (by decide)
     (by intro v hv
         simp only [List.mem_cons, List.not_mem_nil, or_false] at hv
         rcases hv with h | h
         · cases Option.some.inj h; rfl
         · exact absurd h (by simp))⟩

/-! ## C7: the synthesized total column -/

/-- Model of `'total_({:d})'.format(pts_tot)` with
`pts_tot = int(df.columns.str.extractall(PAT_POINTS).astype(int).sum())`
(main.py 235–236): the name encodes the sum of the parenthesized
maxima over all points columns (`PAT_POINTS` is end-anchored, so each
column name contributes at most one match). -/
def totalColName (cols : List String) : String :=
  "total_(" ++ toString ((cols.filterMap matchpointstotal).sum) ++ ")"

/-- Model of `df[pts_col].sum(axis=1)` for one row, where
`pts_col = df.filter(regex=PAT_POINTS, axis=1).columns` (main.py 234):
the sum of the row's values in the columns whose name matches
`PAT_POINTS`.  `cols` are the column names and `row` the aligned cell
values of the row. -/
def rowPointsTotal (cols : List String) (row : List ℚ) : ℚ :=
  (((cols.zip row).filter
      (fun p => (matchpointstotal p.1).isSome)).map Prod.snd).sum

/-- The total-column step of `read` (main.py 233–237): append the
`total_(T)` column; every row receives the sum of its points columns.
Cell values of non-points columns never enter the total; they are
modelled as rationals alongside the points cells. -/
def addTotalColumn (cols : List String) (rows : List (List ℚ)) :
    List String × List (List ℚ) :=
  (cols ++ [totalColName cols],
   rows.map (fun r => r ++ [rowPointsTotal cols r]))

/-- Selecting the points columns by name and summing equals the
index-wise sum over the positions of matching column names. -/
theorem rowPointsTotal_eq_sum (cols : List String) (row : List ℚ) :
    rowPointsTotal cols row =
      ∑ i ∈ Finset.range (min cols.length row.length),
        (if (matchpointstotal (cols.getD i "")).isSome
         then row.getD i 0 else 0) := by
  induction cols generalizing row with
  | nil => simp [rowPointsTotal]
  | cons c cs ih =>
      cases row with
      | nil => simp [rowPointsTotal]
      | cons v vs =>
          have hmin : min (c :: cs).length (v :: vs).length =
              min cs.length vs.length + 1 := by
            simp only [List.length_cons]
            omega
          rw [hmin, Finset.sum_range_succ']
          simp only [List.getD_cons_succ, List.getD_cons_zero]
          rw [rowPointsTotal, List.zip_cons_cons, List.filter_cons]
          by_cases h : (matchpointstotal c).isSome
          · rw [if_pos (by simpa using h), if_pos h]
            simp only [List.map_cons, List.sum_cons]
            rw [← rowPointsTotal, ih vs]
            ring
          · rw [if_neg (by simpa using h), if_neg h]
            rw [← rowPointsTotal, ih vs]
            ring

/-- C7: after reconciliation a new column `total_(T)` is appended,
`T` being the sum of the maxima parsed from the points-column names,
and in every row its value is the sum of the row's points columns;
concretely, columns `hw1_(25)`, `hw2_(10)` yield `total_(35)` and a
row `[20, 5]` gets total 25. -/
theorem total_column_spec (cols : List String) (rows : List (List ℚ))
    (h : ∀ r ∈ rows, r.length = cols.length) :
    (addTotalColumn cols rows).1 =
      cols ++ ["total_(" ++ toString ((cols.filterMap matchpointstotal).sum) ++ ")"] ∧
    (addTotalColumn cols rows).2 =
      rows.map (fun r => r ++
        [∑ i ∈ Finset.range cols.length,
          (if (matchpointstotal (cols.getD i "")).isSome
           then r.getD i 0 else 0)]) ∧
    addTotalColumn ["hw1_(25)", "hw2_(10)"] [[20, 5]] =
      (["hw1_(25)", "hw2_(10)", "total_(35)"], [[20, 5, 25]]) := by
  refine ⟨rfl, ?_, ?_⟩
  · simp only [addTotalColumn]
    refine List.map_congr_left (fun r hr => ?_)
    rw [rowPointsTotal_eq_sum, h r hr, min_self]
  · have h25 : rowPointsTotal ["hw1_(25)", "hw2_(10)"] [20, 5] = 25 := by
      rw [rowPointsTotal]
      have hz : (["hw1_(25)", "hw2_(10)"].zip ([20, 5] : List ℚ)) =
          [("hw1_(25)", (20 : ℚ)), ("hw2_(10)", (5 : ℚ))] := rfl
      rw [hz, List.filter_cons, List.filter_cons]
      norm_num [show (matchpointstotal "hw1_(25)").isSome = true from rfl,
        show (matchpointstotal "hw2_(10)").isSome = true from rfl]
    simp only [addTotalColumn, List.map_cons, List.map_nil, h25]
    rfl

/-- Witness for `total_column_spec` on a table with an identity
column, two points columns and the day column. -/
theorem total_column_spec_witness :
    (addTotalColumn ["last_name", "hw1_(25)", "hw2_(10)", "day"]
        [[0, 20, 5, 0]]).1 =
      ["last_name", "hw1_(25)", "hw2_(10)", "day"] ++
        ["total_(" ++ toString
          ((["last_name", "hw1_(25)", "hw2_(10)", "day"].filterMap
            matchpointstotal).sum) ++ ")"] ∧
    (addTotalColumn ["last_name", "hw1_(25)", "hw2_(10)", "day"]
        [[0, 20, 5, 0]]).2 =
      [[0, 20, 5, 0]].map (fun r => r ++
        [∑ i ∈ Finset.range (["last_name", "hw1_(25)", "hw2_(10)", "day"] : List String).length,
          (if (matchpointstotal
              (["last_name", "hw1_(25)", "hw2_(10)", "day"].getD i "")).isSome
           then r.getD i 0 else 0)]) ∧
    addTotalColumn ["hw1_(25)", "hw2_(10)"] [[20, 5]] =
      (["hw1_(25)", "hw2_(10)", "total_(35)"], [[20, 5, 25]]) :=
  total_column_spec ["last_name", "hw1_(25)", "hw2_(10)", "day"]
    [[0, 20, 5, 0]] (by decide)

/-! ## C4: first-difference reconciliation -/

/-- One report row at the reconciliation stage: the composite identity
key (the values of the five `KEY_COLS`), the report day, and the row's
values in the points columns. -/
structure RRow where
  key : List String
  day : ℤ
  pts : List ℚ
  deriving DecidableEq, Repr

/-- The order established by `df.set_index(KEY_COLS).sort_index()`
(main.py 226) on rows that `readmanyreports` already put in day order:
by identity key (pandas MultiIndex order is lexicographic on the five
components), days in order within a key (MultiIndex sorting is
stable). -/
def rowLe (a b : RRow) : Prop :=
  a.key < b.key ∨ (a.key = b.key ∧ a.day ≤ b.day)

instance : DecidableRel rowLe := fun a b => by
  unfold rowLe; infer_instance

instance : IsTotal RRow rowLe :=
  ⟨fun a b => by
    rcases lt_trichotomy a.key b.key with h | h | h
    · exact Or.inl (Or.inl h)
    · rcases le_total a.day b.day with hd | hd
      · exact Or.inl (Or.inr ⟨h, hd⟩)
      · exact Or.inr (Or.inr ⟨h.symm, hd⟩)
    · exact Or.inr (Or.inl h)⟩

instance : IsTrans RRow rowLe :=
  ⟨fun a b c hab hbc => by
    rcases hab with h1 | ⟨h1, d1⟩ <;> rcases hbc with h2 | ⟨h2, d2⟩
    · exact Or.inl (h1.trans h2)
    · exact Or.inl (lt_of_lt_of_le h1 (le_of_eq h2))
    · exact Or.inl (lt_of_le_of_lt (le_of_eq h1) h2)
    · exact Or.inr ⟨h1.trans h2, d1.trans d2⟩⟩

/-- Model of `set_index(KEY_COLS).sort_index()`: sort rows by (key, day). -/
def sortKeyDay (rows : List RRow) : List RRow :=
  List.insertionSort rowLe rows

/-- Elementwise subtraction of two points vectors (`diff` acts on
every points column at once). -/
def vecSub (a b : List ℚ) : List ℚ := List.zipWith (· - ·) a b

/-- Tail worker of the grouped diff: `prev` is the previous row in
sorted order, still carrying its raw (cumulative) values. -/
def groupDiffGo (prev : RRow) : List RRow → List RRow
  | [] => []
  | r :: rs =>
      (if r.key = prev.key then { r with pts := vecSub r.pts prev.pts } else r)
        :: groupDiffGo r rs

/-- Model of `groupby(by=df.index.names).diff().fillna(df)` (main.py 227–230)
on key-sorted rows: each row's points columns become the difference
with the previous row of the same key (rows of equal key are adjacent
after sorting); `diff` leaves NaN at each key's first row and
`fillna(df)` restores that row's raw values. -/
def groupDiff : List RRow → List RRow
  | [] => []
  | r :: rs => r :: groupDiffGo r rs

/-- The reconciliation diff stage of `read` without a due-date roster
(main.py 226–232): sort by key and day, then the grouped first
difference. -/
def reconcile (rows : List RRow) : List RRow :=
  groupDiff (sortKeyDay rows)

/-- Per-key first differences of a day-ordered list of cumulative
points vectors, given the previous day's raw vector. -/
def diffFillGo (prev : List ℚ) : List (List ℚ) → List (List ℚ)
  | [] => []
  | v :: vs => vecSub v prev :: diffFillGo v vs

/-- Per-key first differences: the first day keeps its raw vector,
every later day becomes the difference with its predecessor. -/
def diffFill : List (List ℚ) → List (List ℚ)
  | [] => []
  | v :: vs => v :: diffFillGo v vs

/-- The rows of one student key, in order. -/
def keyRows (k : List String) (rows : List RRow) : List RRow :=
  rows.filter (fun r => decide (r.key = k))

theorem keyRows_cons_of_eq {k : List String} {r : RRow} (rs : List RRow)
    (h : r.key = k) : keyRows k (r :: rs) = r :: keyRows k rs := by
  simp [keyRows, List.filter_cons, h]

theorem keyRows_cons_of_ne {k : List String} {r : RRow} (rs : List RRow)
    (h : ¬r.key = k) : keyRows k (r :: rs) = keyRows k rs := by
  simp [keyRows, List.filter_cons, h]

theorem groupDiffGo_keyRows (k : List String) :
    ∀ (l : List RRow) (prev : RRow), List.Sorted rowLe (prev :: l) →
      (keyRows k (groupDiffGo prev l)).map RRow.pts =
        (if prev.key = k
         then diffFillGo prev.pts ((keyRows k l).map RRow.pts)
         else diffFill ((keyRows k l).map RRow.pts)) := by
  intro l
  induction l with
  | nil =>
      intro prev _
      split_ifs <;> rfl
  | cons r rs ih =>
      intro prev hsort
      obtain ⟨hall, hsort'⟩ := List.sorted_cons.mp hsort
      have hpr : rowLe prev r := hall r (by simp)
      have hkey : (if r.key = prev.key
          then { r with pts := vecSub r.pts prev.pts } else r).key = r.key := by
        split_ifs <;> rfl
      rw [groupDiffGo]
      by_cases hrk : r.key = k
      · rw [keyRows_cons_of_eq _ (hkey.trans hrk), List.map_cons, ih r hsort',
          if_pos hrk, keyRows_cons_of_eq _ hrk, List.map_cons]
        by_cases hpk : prev.key = k
        · have hrp : r.key = prev.key := hrk.trans hpk.symm
          rw [if_pos hpk, if_pos hrp, diffFillGo]
        · have hrp : ¬r.key = prev.key := fun h => hpk (h.symm.trans hrk)
          rw [if_neg hpk, if_neg hrp, diffFill]
      · rw [keyRows_cons_of_ne _ (fun h => hrk (hkey.symm.trans h)),
          ih r hsort', if_neg hrk, keyRows_cons_of_ne _ hrk]
        by_cases hpk : prev.key = k
        · have hlt : prev.key < r.key := by
            rcases hpr with h | ⟨h, _⟩
            · exact h
            · exact absurd (h.symm.trans hpk) hrk
          have hnil : keyRows k rs = [] := by
            rw [keyRows, List.filter_eq_nil_iff]
            intro x hx
            have hrx : rowLe r x := (List.sorted_cons.mp hsort').1 x hx
            have hle : r.key ≤ x.key := by
              rcases hrx with h | ⟨h, _⟩
              · exact h.le
              · exact h.le
            have : ¬x.key = k := fun h => by
              rw [← hpk] at h
              exact absurd (h ▸ (hlt.trans_le hle)) (lt_irrefl _)
            simpa using this
          rw [hnil, if_pos hpk]
          rfl
        · rw [if_neg hpk]

/-- C4: for every student key, the reconciler turns that key's
(day-ordered) cumulative points vectors into per-key first
differences: the first day keeps its raw values and every later day
becomes the difference with the previous day; concretely, cumulative
values [10], [25], [25] across three ordered days become
[10], [15], [0]. -/
theorem reconcile_first_difference (rows : List RRow) (k : List String) :
    (keyRows k (reconcile rows)).map RRow.pts =
      diffFill ((keyRows k (sortKeyDay rows)).map RRow.pts) ∧
    reconcile
      [⟨["doe", "jane", "jd@u.edu", "jd@s.edu", "117"], 0, [10]⟩,
       ⟨["doe", "jane", "jd@u.edu", "jd@s.edu", "117"], 86400000000000, [25]⟩,
       ⟨["doe", "jane", "jd@u.edu", "jd@s.edu", "117"], 172800000000000, [25]⟩] =
      [⟨["doe", "jane", "jd@u.edu", "jd@s.edu", "117"], 0, [10]⟩,
       ⟨["doe", "jane", "jd@u.edu", "jd@s.edu", "117"], 86400000000000, [15]⟩,
       ⟨["doe", "jane", "jd@u.edu", "jd@s.edu", "117"], 172800000000000, [0]⟩] := by
  constructor
  · have hs : List.Sorted rowLe (sortKeyDay rows) :=
      List.sorted_insertionSort rowLe rows
    rw [reconcile]
    generalize sortKeyDay rows = s at hs ⊢
    cases s with
    | nil => rfl
    | cons r rs =>
        rw [groupDiff]
        by_cases hrk : r.key = k
        · rw [keyRows_cons_of_eq _ hrk, keyRows_cons_of_eq _ hrk,
            List.map_cons, List.map_cons, groupDiffGo_keyRows k rs r hs,
            if_pos hrk, diffFill]
        · rw [keyRows_cons_of_ne _ hrk, keyRows_cons_of_ne _ hrk,
            groupDiffGo_keyRows k rs r hs, if_neg hrk]
  · rw [reconcile]
    have hsorted : List.Sorted rowLe
        [⟨["doe", "jane", "jd@u.edu", "jd@s.edu", "117"], 0, [10]⟩,
         ⟨["doe", "jane", "jd@u.edu", "jd@s.edu", "117"], 86400000000000, [25]⟩,
         ⟨["doe", "jane", "jd@u.edu", "jd@s.edu", "117"], 172800000000000, [25]⟩] := by
      refine List.sorted_cons.mpr ⟨?_, List.sorted_cons.mpr
        ⟨?_, List.sorted_singleton _⟩⟩
      · intro b hb
        rcases List.mem_cons.mp hb with rfl | hb
        · exact Or.inr ⟨rfl, by norm_num⟩
        · rcases List.mem_cons.mp hb with rfl | hb
          · exact Or.inr ⟨rfl, by norm_num⟩
          · exact absurd hb (List.not_mem_nil _)
      · intro b hb
        rcases List.mem_cons.mp hb with rfl | hb
        · exact Or.inr ⟨rfl, by norm_num⟩
        · exact absurd hb (List.not_mem_nil _)
    rw [sortKeyDay, List.Sorted.insertionSort_eq hsorted]
    norm_num [groupDiff, groupDiffGo, vecSub]

end Zybookgrader
